import Mathlib

/-!
Verification of the AI request orchestration and caching core of the
repository: `src/ai_orchestration/src/base_agent.py` (resilient execution
wrapper: validation, retries with exponential backoff, timeouts, health
metrics), `src/backend/app/services/cache.py` (cache key derivation and the
`cached_ai_request` wrapper) and `src/backend/app/services/ai_orchestrator.py`
(the orchestrator composing the semaphore, the cache and the agents).

The Python code is embedded shallowly:
* Python values that flow through the cache are modelled by `PyValue`
  (with Python truthiness as `PyValue.truthy`).
* Python exceptions are modelled by `PyExc`, a kind plus a message; a
  function that can raise returns `Except PyExc _`.
* `await`/async concurrency is sequentialized; each call to an agent's
  `process` is modelled by a wall-time duration together with an outcome,
  and `asyncio.wait_for` is modelled as a check of the accumulated wall
  time (process durations plus back-off sleeps) against the deadline.
* Observable effects that a claim talks about (semaphore acquisition,
  cache reads and writes, agent invocations, performed sleeps) are
  reified in the return values as counters, event traces and write lists.
* Real durations and the error rates are modelled by `ℚ` (division by
  powers of two and the comparisons against 0.1/0.5 used by the code are
  exact in binary floating point at the points the claims exercise).
-/

namespace Spec2Proof

/-! ## Python values and truthiness -/

/-- A Python value as it appears in the cached payloads and agent inputs:
`None`, booleans, ints, strings, lists and string-keyed dicts (a dict is a
key/value association list in insertion order; a genuine Python dict has
no duplicate keys, which appears as a `Nodup` hypothesis where needed). -/
inductive PyValue where
  | none
  | bool (b : Bool)
  | int (n : Int)
  | str (s : String)
  | list (xs : List PyValue)
  | dict (fields : List (String × PyValue))

/-- Python truthiness: `None`, `False`, `0`, `""`, `[]` and `{}` are falsy,
everything else is truthy.  This is the test `if cached_result:` performs. -/
def PyValue.truthy : PyValue → Bool
  | .none => false
  | .bool b => b
  | .int n => n != 0
  | .str s => s != ""
  | .list xs => !xs.isEmpty
  | .dict f => !f.isEmpty

/-- `d.get(k)` on a Python dict: the value at the first matching key, or
`Option.none` when the key is absent (Python would return `None`). -/
def pyGet (v : PyValue) (k : String) : Option PyValue :=
  match v with
  | .dict f => f.lookup k
  | _ => Option.none

/-! ## Python exceptions -/

/-- The exception classes the orchestration code distinguishes. -/
inductive ExcKind where
  | valueError
  | typeError
  | timeoutError
  | validationError
  | aiGenerationError
  | other (cls : String)
deriving DecidableEq

/-- A raised Python exception: its class together with its message. -/
structure PyExc where
  kind : ExcKind
  msg : String
deriving DecidableEq

/-- `isinstance(e, (ValueError, TypeError))`, the test `_process_with_retries`
uses to decide that an exception must not be retried. -/
def isValueOrTypeError (e : PyExc) : Bool :=
  match e.kind with
  | .valueError => true
  | .typeError => true
  | _ => false

/-! ## BaseAgent: retry loop (`_process_with_retries`) -/

/-- What one invocation of an agent coroutine produces: it runs for
`duration` seconds of wall time and then either returns a value or raises. -/
structure AttemptResult where
  duration : ℚ
  outcome : Except PyExc PyValue

/-- The observable outcome of `_process_with_retries`: the returned value or
re-raised exception, how many times `process` was invoked, the back-off
sleeps that were performed (in order), and the total elapsed wall time
(process durations plus sleeps). -/
structure RetryOut where
  outcome : Except PyExc PyValue
  calls : Nat
  delays : List ℚ
  elapsed : ℚ

/-- The body of `_process_with_retries` from `base_agent.py`, from loop
index `attempt` on.  `process n` is the behaviour of the `n`-th invocation
of the abstract `process` coroutine (`n = 0, 1, ...`).  Mirrors the source:
each attempt calls `process`; a `ValueError`/`TypeError` is re-raised at
once; otherwise, while `attempt < max_retries`, the loop sleeps
`retry_delay * 2 ** attempt` seconds and retries; after the last attempt
the last exception is re-raised. -/
def retriesLoop (process : Nat → AttemptResult) (max_retries : Nat)
    (retry_delay : ℚ) (attempt : Nat) : RetryOut :=
  let a := process attempt
  match a.outcome with
  | .ok v => ⟨.ok v, 1, [], a.duration⟩
  | .error e =>
    if isValueOrTypeError e then ⟨.error e, 1, [], a.duration⟩
    else if _h : attempt < max_retries then
      let delay := retry_delay * 2 ^ attempt
      let rest := retriesLoop process max_retries retry_delay (attempt + 1)
      ⟨rest.outcome, rest.calls + 1, delay :: rest.delays,
        a.duration + delay + rest.elapsed⟩
    else ⟨.error e, 1, [], a.duration⟩
termination_by max_retries - attempt
decreasing_by omega

/-- `_process_with_retries(input_data)`: the retry loop started at attempt 0. -/
def process_with_retries (process : Nat → AttemptResult) (max_retries : Nat)
    (retry_delay : ℚ) : RetryOut :=
  retriesLoop process max_retries retry_delay 0

/-! ## BaseAgent: `process_with_timeout` and health metrics -/

/-- The performance counters a `BaseAgent` carries: `_request_count`,
`_error_count` and `_total_processing_time`. -/
structure AgentState where
  request_count : Nat
  error_count : Nat
  total_processing_time : ℚ
deriving DecidableEq

/-- The observable outcome of `process_with_timeout`: the returned value or
raised exception, the updated counters, and how many times `process` ran. -/
structure TimeoutOut where
  result : Except PyExc PyValue
  state : AgentState
  calls : Nat

/-- `process_with_timeout(input_data)` from `base_agent.py`.  `validate` is
the value `validate_input(input_data)` returns (it is side-effect-free).
Mirrors the source: `_request_count` is incremented first; a validation
failure raises `ValueError("Input validation failed")`, which the generic
`except` clause turns into an `_error_count` increment before re-raising,
and `process` is never invoked; otherwise `_process_with_retries` runs under
`asyncio.wait_for`, modelled as a check of its total elapsed wall time
against `timeout` — exceeding it raises `TimeoutError` and increments
`_error_count`; on success the elapsed time is added to
`_total_processing_time`; any exception escaping the retry loop increments
`_error_count` and is re-raised. -/
def process_with_timeout (validate : Bool) (process : Nat → AttemptResult)
    (timeout : ℚ) (max_retries : Nat) (retry_delay : ℚ)
    (st : AgentState) : TimeoutOut :=
  let st1 : AgentState := { st with request_count := st.request_count + 1 }
  if validate = false then
    ⟨.error ⟨.valueError, "Input validation failed"⟩,
      { st1 with error_count := st1.error_count + 1 }, 0⟩
  else
    let r := process_with_retries process max_retries retry_delay
    if r.elapsed > timeout then
      ⟨.error ⟨.timeoutError, "Agent timed out"⟩,
        { st1 with error_count := st1.error_count + 1 }, r.calls⟩
    else
      match r.outcome with
      | .ok v =>
        ⟨.ok v,
          { st1 with total_processing_time := st1.total_processing_time + r.elapsed },
          r.calls⟩
      | .error e =>
        ⟨.error e, { st1 with error_count := st1.error_count + 1 }, r.calls⟩

/-- What `get_health_status` returns (the `config` echo of the constructor
arguments is omitted). -/
structure HealthReport where
  status : String
  error_rate : ℚ
  avg_processing_time : ℚ
  total_requests : Nat
  total_errors : Nat
deriving DecidableEq

/-- `get_health_status()` from `base_agent.py`: `error_rate` and
`avg_processing_time` are the counter quotients (0 when `_request_count` is
0); the status starts `"healthy"`, becomes `"degraded"` when
`error_rate > 0.1` and `"unhealthy"` when `error_rate > 0.5`. -/
def get_health_status (st : AgentState) : HealthReport :=
  let error_rate : ℚ :=
    if st.request_count > 0 then (st.error_count : ℚ) / (st.request_count : ℚ) else 0
  let avg_time : ℚ :=
    if st.request_count > 0 then st.total_processing_time / (st.request_count : ℚ) else 0
  let status0 := "healthy"
  let status1 := if error_rate > 1/10 then "degraded" else status0
  let status2 := if error_rate > 1/2 then "unhealthy" else status1
  ⟨status2, error_rate, avg_time, st.request_count, st.error_count⟩

/-- Behaviour of the retry loop when every attempt raises a retryable
exception: characterises outcome, call count and the performed sleeps of
`retriesLoop` from any loop index `attempt` with `k` retries left. -/
theorem retriesLoop_allFail (process : Nat → AttemptResult) (max_retries : Nat)
    (retry_delay : ℚ)
    (hfail : ∀ n, ∃ e, (process n).outcome = .error e ∧ isValueOrTypeError e = false) :
    ∀ k attempt, max_retries = attempt + k →
      (retriesLoop process max_retries retry_delay attempt).outcome
          = (process max_retries).outcome ∧
      (retriesLoop process max_retries retry_delay attempt).calls = k + 1 ∧
      (retriesLoop process max_retries retry_delay attempt).delays
          = (List.range' attempt k).map (fun i => retry_delay * 2 ^ i) := by
  intro k
  induction k with
  | zero =>
    intro attempt h
    obtain ⟨e, he, hvt⟩ := hfail attempt
    have hend : max_retries = attempt := by omega
    rw [retriesLoop]
    subst hend
    simp [he, hvt]
  | succ k ih =>
    intro attempt h
    obtain ⟨e, he, hvt⟩ := hfail attempt
    have hlt : attempt < max_retries := by omega
    obtain ⟨iho, ihc, ihd⟩ := ih (attempt + 1) (by omega)
    rw [retriesLoop]
    simp [he, hvt, hlt, iho, ihc, ihd, List.range'_succ]

/-- C1: for every agent whose `process()` always raises a retryable
(non-`ValueError`/`TypeError`) exception, `_process_with_retries` invokes
`process` exactly `max_retries + 1` times, sleeps before each retry for
`retry_delay * 2 ^ attempt` seconds (`attempt = 0, 1, ...`) — a strictly
increasing exponential sequence (strict for the positive delays the default
`retry_delay = 1.0` provides) — and then re-raises the last exception. -/
theorem retry_exhaustion_on_transient
    (process : Nat → AttemptResult) (max_retries : Nat) (retry_delay : ℚ)
    (hfail : ∀ n, ∃ e, (process n).outcome = .error e ∧ isValueOrTypeError e = false) :
    (process_with_retries process max_retries retry_delay).calls = max_retries + 1 ∧
    (process_with_retries process max_retries retry_delay).delays
        = (List.range max_retries).map (fun i => retry_delay * 2 ^ i) ∧
    (∃ e, (process max_retries).outcome = .error e ∧
      (process_with_retries process max_retries retry_delay).outcome = .error e) ∧
    (0 < retry_delay →
      (process_with_retries process max_retries retry_delay).delays.Pairwise (· < ·)) := by
  obtain ⟨ho, hc, hd⟩ :=
    retriesLoop_allFail process max_retries retry_delay hfail max_retries 0 (by omega)
  obtain ⟨e, he, hvt⟩ := hfail max_retries
  refine ⟨hc, ?_, ⟨e, he, ?_⟩, ?_⟩
  · rw [process_with_retries, hd, List.range_eq_range']
  · rw [process_with_retries, ho, he]
  · intro hpos
    rw [process_with_retries, hd, ← List.range_eq_range']
    refine List.Pairwise.map _ (fun i j hij => ?_) (List.pairwise_lt_range max_retries)
    have h2 : (2 : ℚ) ^ i < 2 ^ j := by
      exact pow_lt_pow_right₀ one_lt_two hij
    exact mul_lt_mul_of_pos_left h2 hpos

/-- Witness for C1 at a concrete always-failing agent (`max_retries = 3`,
`retry_delay = 1`): `process` is invoked four times. -/
theorem retry_exhaustion_on_transient_witness :
    (process_with_retries (fun _ => ⟨1, .error ⟨.other "RateLimitError", "429"⟩⟩) 3 1).calls
      = 3 + 1 :=
  (retry_exhaustion_on_transient (fun _ => ⟨1, .error ⟨.other "RateLimitError", "429"⟩⟩) 3 1
    (fun _ => ⟨⟨.other "RateLimitError", "429"⟩, rfl, rfl⟩)).1

/-- C5: on every input for which `validate_input` returns false,
`process_with_timeout` fails immediately with the validation `ValueError`,
never invokes `process` (hence no retry), and increments both
`_request_count` and `_error_count` by exactly one (leaving
`_total_processing_time` unchanged). -/
theorem validation_failure_terminal (process : Nat → AttemptResult)
    (timeout : ℚ) (max_retries : Nat) (retry_delay : ℚ) (st : AgentState) :
    (process_with_timeout false process timeout max_retries retry_delay st).result
        = .error ⟨.valueError, "Input validation failed"⟩ ∧
    (process_with_timeout false process timeout max_retries retry_delay st).calls = 0 ∧
    (process_with_timeout false process timeout max_retries retry_delay st).state.request_count
        = st.request_count + 1 ∧
    (process_with_timeout false process timeout max_retries retry_delay st).state.error_count
        = st.error_count + 1 ∧
    (process_with_timeout false process timeout max_retries
        retry_delay st).state.total_processing_time = st.total_processing_time := by
  simp [process_with_timeout]

/-- C9: `get_health_status` is total and never divides by zero: with
`_request_count = 0` it reports error rate 0, average processing time 0 and
status `"healthy"`, whatever the other counters hold. -/
theorem health_status_total_on_zero_requests (error_count : Nat)
    (total_processing_time : ℚ) :
    get_health_status ⟨0, error_count, total_processing_time⟩
      = ⟨"healthy", 0, 0, 0, error_count⟩ := by
  norm_num [get_health_status]

/-- The status `get_health_status` reports for an agent that has seen at
least one request, as a function of the error-rate quotient. -/
theorem health_status_eq (st : AgentState) (h : 0 < st.request_count) :
    (get_health_status st).status =
      if (1:ℚ)/2 < (st.error_count : ℚ) / st.request_count then "unhealthy"
      else if (1:ℚ)/10 < (st.error_count : ℚ) / st.request_count then "degraded"
      else "healthy" := by
  simp [get_health_status, h, gt_iff_lt]

/-- C3 counterexample: at an error rate of exactly 10.0% (100 errors out of
1000 requests) the code reports `"healthy"`, not `"degraded"` — the
`"degraded"` branch requires `error_rate > 0.1` strictly. -/
theorem health_boundary_ten_percent_healthy :
    (get_health_status ⟨1000, 100, 0⟩).error_rate = 1/10 ∧
    (get_health_status ⟨1000, 100, 0⟩).status = "healthy" := by
  constructor <;> norm_num [get_health_status]

/-- C3 (amended): for every agent with `requestCount > 0`,
`get_health_status` computes `errorRate = errorCount/requestCount` and
reports `"healthy"` at a rate of 9.9% and at exactly 10.0%, `"degraded"` at
10.1%, and `"unhealthy"` for rates above 50%; `"healthy"` holds iff the rate
is ≤ 10%. -/
theorem health_status_thresholds (st : AgentState) (h : 0 < st.request_count) :
    (get_health_status st).error_rate = (st.error_count : ℚ) / st.request_count ∧
    ((get_health_status st).error_rate = 99/1000 →
      (get_health_status st).status = "healthy") ∧
    ((get_health_status st).error_rate = 1/10 →
      (get_health_status st).status = "healthy") ∧
    ((get_health_status st).error_rate = 101/1000 →
      (get_health_status st).status = "degraded") ∧
    ((1:ℚ)/2 < (get_health_status st).error_rate →
      (get_health_status st).status = "unhealthy") ∧
    ((get_health_status st).status = "healthy" ↔
      (get_health_status st).error_rate ≤ 1/10) := by
  have hq : (get_health_status st).error_rate = (st.error_count : ℚ) / st.request_count := by
    simp [get_health_status, h]
  rw [health_status_eq st h, hq]
  refine ⟨rfl, ?_, ?_, ?_, ?_, ?_⟩
  · intro hr; rw [hr]; norm_num
  · intro hr; rw [hr]; norm_num
  · intro hr; rw [hr]; norm_num
  · intro hr; rw [if_pos hr]
  · by_cases h1 : (1:ℚ)/2 < (st.error_count : ℚ) / st.request_count
    · rw [if_pos h1]
      exact ⟨fun hs => absurd hs (by decide), fun hle => absurd hle (by linarith)⟩
    · rw [if_neg h1]
      by_cases h2 : (1:ℚ)/10 < (st.error_count : ℚ) / st.request_count
      · rw [if_pos h2]
        exact ⟨fun hs => absurd hs (by decide), fun hle => absurd hle (by linarith)⟩
      · rw [if_neg h2]
        exact ⟨fun _ => le_of_not_lt h2, fun _ => rfl⟩

/-- Witness for C3 (amended) at a concrete agent: 99 errors out of 1000
requests (a 9.9% error rate) reports `"healthy"`. -/
theorem health_status_thresholds_witness :
    (get_health_status ⟨1000, 99, 0⟩).status = "healthy" :=
  (health_status_thresholds ⟨1000, 99, 0⟩ (by norm_num)).2.1
    (by norm_num [get_health_status])

/-! ## Cache layer: `cache.py` -/

/-- `_deserialize_value` from `cache.py`, applied to the JSON parse of the
stored string: a parse failure (`json.loads` raising, modelled as
`Option.none`) yields Python `None`, otherwise the stored envelope's
`data` field (`cached_data.get('data')`, `None` when absent). -/
def deserialize_value (parsed : Option PyValue) : PyValue :=
  match parsed with
  | Option.none => .none
  | Option.some v => (pyGet v "data").getD .none

/-- The test `result.get('status') == 'success'` that guards the cache
write in `cached_ai_request`. -/
def isSuccessStatus (r : PyValue) : Bool :=
  match pyGet r "status" with
  | Option.some (.str s) => s == "success"
  | _ => false

/-- The observable outcome of one `cached_ai_request` call: the returned
value or propagated exception, the processor's final state, whether
`processor_func` was invoked, and the values written to the cache. -/
structure CacheCall (σ : Type) where
  result : Except PyExc PyValue
  state : σ
  processor_called : Bool
  cache_writes : List PyValue

/-- `cached_ai_request` from `cache.py`.  `cached` is the value
`cache_service.get("ai_responses", cache_key)` returned (`PyValue.none` on a
miss, a Redis error, or a deserialization failure); `processor` is
`processor_func`, a stateful computation (state type `σ`, the agent's
counters in the orchestrator) that may raise.  Mirrors the source: a truthy
cached value is returned as is; otherwise the processor runs, its result is
written to the cache exactly when `result.get('status') == 'success'`, and
the result (or the exception) is passed through. -/
def cached_ai_request {σ : Type} (cached : PyValue)
    (processor : σ → Except PyExc PyValue × σ) (st : σ) : CacheCall σ :=
  if cached.truthy then ⟨.ok cached, st, false, []⟩
  else
    match processor st with
    | (.error e, st1) => ⟨.error e, st1, true, []⟩
    | (.ok r, st1) =>
      if isSuccessStatus r then ⟨.ok r, st1, true, [r]⟩
      else ⟨.ok r, st1, true, []⟩

/-- C6: whenever the cache lookup returns a truthy stored result,
`cached_ai_request` returns it directly, never invokes `processor_func`,
and leaves the agent's health counters (the processor state) unchanged. -/
theorem cache_hit_no_processor (cached : PyValue)
    (processor : AgentState → Except PyExc PyValue × AgentState) (st : AgentState)
    (h : cached.truthy = true) :
    (cached_ai_request cached processor st).result = .ok cached ∧
    (cached_ai_request cached processor st).processor_called = false ∧
    (cached_ai_request cached processor st).state = st := by
  simp [cached_ai_request, h]

/-- Witness for C6: a concrete truthy cached payload is served without
running the processor. -/
theorem cache_hit_no_processor_witness :
    (cached_ai_request (.str "cached-battlecard")
      (fun st : AgentState => (.ok .none, st)) ⟨5, 1, 10⟩).processor_called = false :=
  (cache_hit_no_processor (.str "cached-battlecard")
    (fun st : AgentState => (.ok .none, st)) ⟨5, 1, 10⟩ rfl).2.1

/-- C7: `cached_ai_request` writes to the cache exactly the results whose
`status` field equals `"success"`: every written value has success status,
and on the processing path (a falsy lookup, processor returning `r`) a
write happens iff `r` has success status — and then the stored value is `r`
itself. -/
theorem cache_write_iff_success {σ : Type} (cached : PyValue)
    (processor : σ → Except PyExc PyValue × σ) (st : σ) :
    (∀ w ∈ (cached_ai_request cached processor st).cache_writes,
        isSuccessStatus w = true) ∧
    (cached.truthy = false → ∀ r st1, processor st = (.ok r, st1) →
      ((cached_ai_request cached processor st).cache_writes
          = (if isSuccessStatus r then [r] else []))) := by
  constructor
  · intro w hw
    unfold cached_ai_request at hw
    split at hw
    · simp at hw
    · split at hw
      · simp at hw
      · split at hw
        · simp at hw
          rw [hw]
          assumption
        · simp at hw
  · intro hmiss r st1 hp
    simp [cached_ai_request, hmiss, hp]
    split <;> simp

/-- Witness for C7: a concrete miss whose processor returns an error-status
result leads to no cache write. -/
theorem cache_write_iff_success_witness :
    (cached_ai_request (σ := Unit) .none
      (fun u => (.ok (.dict [("status", .str "error")]), u)) ()).cache_writes = [] := by
  have h := (cache_write_iff_success (σ := Unit) .none
    (fun u => (.ok (.dict [("status", .str "error")]), u)) ()).2 rfl
    (.dict [("status", .str "error")]) () rfl
  simpa using h

/-- C10: a cached entry whose stored/deserialized payload is falsy (Python
`None`, empty containers, or a value that failed to deserialize) is treated
as a cache miss: `cached_ai_request` invokes `processor_func` and returns
its outcome (state included), never serving the falsy payload. -/
theorem falsy_cached_payload_is_miss {σ : Type} (parsed : Option PyValue)
    (processor : σ → Except PyExc PyValue × σ) (st : σ)
    (h : (deserialize_value parsed).truthy = false) :
    (cached_ai_request (deserialize_value parsed) processor st).processor_called = true ∧
    (cached_ai_request (deserialize_value parsed) processor st).result = (processor st).1 ∧
    (cached_ai_request (deserialize_value parsed) processor st).state = (processor st).2 := by
  unfold cached_ai_request
  rw [h]
  match hp : processor st with
  | (.error e, st1) => simp [hp]
  | (.ok r, st1) =>
    by_cases hs : isSuccessStatus r = true <;> simp [hp, hs]

/-- Witness for C10: an entry that failed to deserialize (parse failure)
causes the processor to run. -/
theorem falsy_cached_payload_is_miss_witness :
    (cached_ai_request (σ := Unit) (deserialize_value Option.none)
      (fun u => (.ok (.dict [("status", .str "success")]), u)) ()).processor_called = true :=
  (falsy_cached_payload_is_miss (σ := Unit) Option.none
    (fun u => (.ok (.dict [("status", .str "success")]), u)) () rfl).1

/-! ## Orchestrator: `ai_orchestrator.py` -/

/-- The observable actions `process_with_agent` performs, in order:
semaphore acquisition/release, the cache lookup, an agent invocation and a
cache write. -/
inductive OrchEvent where
  | semAcquire
  | cacheGet
  | agentInvoke
  | cacheSet
  | semRelease
deriving DecidableEq

/-- `process_with_agent` from `ai_orchestrator.py`, returning the outcome
(`.error` = the exception the call raises) together with the trace of its
observable actions.  `input_truthy` is the truthiness of `input_data`;
`cached` is what the cache lookup for the computed key returns;
`agent_outcome` is what `agent.process_with_timeout(data)` would produce.
Mirrors the source: falsy `agent_type`/`input_data` and unknown agent types
raise `ValidationError` before anything else; otherwise the semaphore is
acquired and `_process_with_caching` (= `cached_ai_request` around the
agent) runs inside it; the semaphore is released on every exit path;
`asyncio.TimeoutError` becomes an `AIGenerationError`, an `AIGenerationError`
is re-raised, and any other exception is wrapped in an `AIGenerationError`. -/
def process_with_agent (available_agents : List String) (agent_type : String)
    (input_truthy : Bool) (cached : PyValue)
    (agent_outcome : Except PyExc PyValue) :
    Except PyExc PyValue × List OrchEvent :=
  if agent_type = "" ∨ input_truthy = false then
    (.error ⟨.validationError, "Agent type and input data are required"⟩, [])
  else if agent_type ∉ available_agents then
    (.error ⟨.validationError, "Unknown agent type: " ++ agent_type⟩, [])
  else
    let c := cached_ai_request (σ := Unit) cached (fun u => (agent_outcome, u)) ()
    let trace := [OrchEvent.semAcquire, OrchEvent.cacheGet]
      ++ (if c.processor_called then [OrchEvent.agentInvoke] else [])
      ++ c.cache_writes.map (fun _ => OrchEvent.cacheSet)
      ++ [OrchEvent.semRelease]
    match c.result with
    | .ok v => (.ok v, trace)
    | .error e =>
      if e.kind = .timeoutError then
        (.error ⟨.aiGenerationError,
          "AI processing timed out for agent " ++ agent_type⟩, trace)
      else if e.kind = .aiGenerationError then (.error e, trace)
      else (.error ⟨.aiGenerationError, "AI processing failed: " ++ e.msg⟩, trace)

/-- C2 counterexample: on a concrete cache hit (`agent_type = "scorer"`,
truthy cached payload) the orchestrator does acquire a semaphore slot — the
cache lookup happens inside `async with self.request_semaphore`, so a cache
hit is not returned before touching the concurrency limiter. -/
theorem cache_hit_acquires_semaphore_cex :
    OrchEvent.semAcquire ∈
      (process_with_agent ["scorer"] "scorer" true (.str "cached") (.ok .none)).2 := by
  decide

/-- C2 (amended): on a cache hit the orchestrator returns the cached result
without invoking the agent and without writing the cache, but only from
inside the concurrency limiter: the semaphore slot is acquired before the
cache lookup and released after, so the full trace of a hit is acquire,
lookup, release. -/
theorem cache_hit_inside_semaphore (available_agents : List String)
    (agent_type : String) (cached : PyValue) (agent_outcome : Except PyExc PyValue)
    (hty : agent_type ≠ "") (hmem : agent_type ∈ available_agents)
    (hhit : cached.truthy = true) :
    (process_with_agent available_agents agent_type true cached agent_outcome).1
        = .ok cached ∧
    (process_with_agent available_agents agent_type true cached agent_outcome).2
        = [.semAcquire, .cacheGet, .semRelease] := by
  simp [process_with_agent, hty, hmem, cached_ai_request, hhit]

/-- Witness for C2 (amended) at a concrete hit. -/
theorem cache_hit_inside_semaphore_witness :
    (process_with_agent ["scorer"] "scorer" true (.str "cached") (.ok .none)).2
      = [.semAcquire, .cacheGet, .semRelease] :=
  (cache_hit_inside_semaphore ["scorer"] "scorer" (.str "cached") (.ok .none)
    (by decide) (by decide) rfl).2

/-- C4 counterexample: `process_with_agent` does raise to its caller rather
than returning a structured error result: with an empty `agent_type` it
raises `ValidationError` (modelled as an `.error` outcome), so an exception
crosses the orchestrator boundary. -/
theorem orchestrator_raises_cex :
    (process_with_agent ["scorer"] "" true .none (.ok .none)).1
      = .error ⟨.validationError, "Agent type and input data are required"⟩ := rfl

/-- C4 (amended): `process_with_agent` does not return a structured error
result — it raises — but every exception crossing its boundary is
classified: either a `ValidationError` (falsy input or unknown agent type)
or an `AIGenerationError` (timeouts and every other internal failure are
wrapped before re-raising). -/
theorem orchestrator_errors_classified (available_agents : List String)
    (agent_type : String) (input_truthy : Bool) (cached : PyValue)
    (agent_outcome : Except PyExc PyValue) :
    ∀ e, (process_with_agent available_agents agent_type input_truthy cached
        agent_outcome).1 = .error e →
      e.kind = .validationError ∨ e.kind = .aiGenerationError := by
  intro e he
  unfold process_with_agent at he
  split at he
  · simp at he
    rw [← he]
    left
    rfl
  · split at he
    · simp at he
      rw [← he]
      left
      rfl
    · dsimp only at he
      split at he
      · simp at he
      · rename_i heq
        split at he
        · simp at he
          rw [← he]
          right
          rfl
        · rename_i hk
          split at he
          · rename_i hag
            simp at he
            rw [← he]
            right
            exact hag
          · simp at he
            rw [← he]
            right
            rfl

/-- Witness for C4 (amended): a concrete unexpected agent exception
(`KeyError`) reaches the caller as a classified `AIGenerationError`. -/
theorem orchestrator_errors_classified_witness :
    (⟨.aiGenerationError, "AI processing failed: boom"⟩ : PyExc).kind = .validationError ∨
    (⟨.aiGenerationError, "AI processing failed: boom"⟩ : PyExc).kind = .aiGenerationError :=
  orchestrator_errors_classified ["scorer"] "scorer" true .none
    (.error ⟨.other "KeyError", "boom"⟩)
    ⟨.aiGenerationError, "AI processing failed: boom"⟩ rfl

/-! ## Cache key derivation: `cache_key_for_ai_request`

`json.dumps(input_data, sort_keys=True)` serializes every dict with its
items sorted by key; Python compares `str` keys lexicographically by
Unicode code point, written out explicitly here on the underlying
character lists so that everything evaluates. -/

/-- Lexicographic order on strings as character lists, by code point —
the order Python's `sorted` uses on `str`. -/
def charListLe : List Char → List Char → Bool
  | [], _ => true
  | _ :: _, [] => false
  | a :: as, b :: bs =>
    if a < b then true
    else if a = b then charListLe as bs
    else false

/-- `charListLe` is total. -/
theorem charListLe_total : ∀ as bs, (charListLe as bs || charListLe bs as) = true := by
  intro as
  induction as with
  | nil => intro bs; simp [charListLe]
  | cons a as ih =>
    intro bs
    cases bs with
    | nil => simp [charListLe]
    | cons b bs =>
      rcases lt_trichotomy a b with h | h | h
      · simp [charListLe, h]
      · subst h
        simpa [charListLe] using ih bs
      · simp [charListLe, h, lt_asymm h, (ne_of_lt h).symm]

/-- `charListLe` is transitive. -/
theorem charListLe_trans :
    ∀ as bs cs, charListLe as bs = true → charListLe bs cs = true →
      charListLe as cs = true := by
  intro as
  induction as with
  | nil => intro bs cs _ _; simp [charListLe]
  | cons a as ih =>
    intro bs cs hab hbc
    cases bs with
    | nil => simp [charListLe] at hab
    | cons b bs =>
      cases cs with
      | nil => simp [charListLe] at hbc
      | cons c cs =>
        rcases lt_trichotomy a b with h1 | h1 | h1
        · rcases lt_trichotomy b c with h2 | h2 | h2
          · simp [charListLe, lt_trans h1 h2]
          · subst h2; simp [charListLe, h1]
          · simp [charListLe, h2, lt_asymm h2, (ne_of_lt h2).symm] at hbc
        · subst h1
          rcases lt_trichotomy a c with h2 | h2 | h2
          · simp [charListLe, h2]
          · subst h2
            simp [charListLe, lt_irrefl] at hab hbc ⊢
            exact ih _ _ hab hbc
          · simp [charListLe, h2, lt_asymm h2, (ne_of_lt h2).symm] at hbc
        · simp [charListLe, h1, lt_asymm h1, (ne_of_lt h1).symm] at hab

/-- `charListLe` is antisymmetric. -/
theorem charListLe_antisymm :
    ∀ as bs, charListLe as bs = true → charListLe bs as = true → as = bs := by
  intro as
  induction as with
  | nil =>
    intro bs _ hba
    cases bs with
    | nil => rfl
    | cons b bs => simp [charListLe] at hba
  | cons a as ih =>
    intro bs hab hba
    cases bs with
    | nil => simp [charListLe] at hab
    | cons b bs =>
      rcases lt_trichotomy a b with h1 | h1 | h1
      · simp [charListLe, h1, lt_asymm h1, (ne_of_lt h1).symm] at hba
      · subst h1
        simp [charListLe, lt_irrefl] at hab hba
        rw [ih bs hab hba]
      · simp [charListLe, h1, lt_asymm h1, (ne_of_lt h1).symm] at hab

/-- Ordering of dict items by key, as `sorted` orders `dict.items()` for
`json.dumps(..., sort_keys=True)` (dict keys are unique, so comparing the
items is comparing the keys). -/
def fieldLe (p q : String × PyValue) : Bool := charListLe p.1.data q.1.data

/-- The items of a dict in sorted key order. -/
def sortFields (f : List (String × PyValue)) : List (String × PyValue) :=
  f.mergeSort fieldLe

/-- JSON escaping of one character as `json.dumps` renders it inside a
string literal (the escapes relevant here; any fixed rendering function
gives the same canonicalization result). -/
def jsonEscapeChar (c : Char) : String :=
  if c = '"' then "\\\""
  else if c = '\\' then "\\\\"
  else if c = '\n' then "\\n"
  else if c = '\t' then "\\t"
  else if c = '\r' then "\\r"
  else String.singleton c

/-- A JSON string literal. -/
def jsonQuote (s : String) : String :=
  "\"" ++ String.join (s.data.map jsonEscapeChar) ++ "\""

/-- `sep.join(pieces)`: the pieces joined with the separator between
consecutive ones. -/
def joinSep (sep : String) : List String → String
  | [] => ""
  | [a] => a
  | a :: b :: t => a ++ sep ++ joinSep sep (b :: t)

/-- `json.dumps(v, sort_keys=True)`: recursive serialization with the
default `", "` and `": "` separators and every object's keys in sorted
order. -/
def pyDumps : PyValue → String
  | .none => "null"
  | .bool b => if b then "true" else "false"
  | .int n => toString n
  | .str s => jsonQuote s
  | .list xs =>
    "[" ++ joinSep ", " (xs.attach.map fun x => pyDumps x.1) ++ "]"
  | .dict f =>
    "\x7b" ++ joinSep ", "
      ((sortFields f).attach.map fun p => jsonQuote p.1.1 ++ ": " ++ pyDumps p.1.2)
      ++ "\x7d"
termination_by v => sizeOf v
decreasing_by
  · have hx := List.sizeOf_lt_of_mem x.2
    simp only [PyValue.list.sizeOf_spec]
    omega
  · obtain ⟨⟨k, v⟩, hp⟩ := p
    have hmem : (k, v) ∈ f := (List.mergeSort_perm f fieldLe).subset hp
    have hx := List.sizeOf_lt_of_mem hmem
    simp only [PyValue.dict.sizeOf_spec, Prod.mk.sizeOf_spec] at *
    omega

/-- `pyDumps` on a list, stated without `attach`. -/
theorem pyDumps_list (xs : List PyValue) :
    pyDumps (.list xs) = "[" ++ joinSep ", " (xs.map pyDumps) ++ "]" := by
  rw [pyDumps, List.attach_map_coe]

/-- `pyDumps` on a dict, stated without `attach`. -/
theorem pyDumps_dict (f : List (String × PyValue)) :
    pyDumps (.dict f) = "\x7b" ++ joinSep ", "
      ((sortFields f).map fun p => jsonQuote p.1 ++ ": " ++ pyDumps p.2) ++ "\x7d" := by
  rw [pyDumps]
  simp [List.map_attach, List.pmap_eq_map]

/-- A key is found by `lookup` iff it occurs among the keys. -/
theorem lookup_isSome_iff {f : List (String × PyValue)} {k : String} :
    (f.lookup k).isSome = true ↔ k ∈ f.map Prod.fst := by
  induction f with
  | nil => simp [List.lookup]
  | cons p t ih =>
    obtain ⟨k0, v0⟩ := p
    by_cases h : k = k0
    · subst h
      simp [List.lookup_cons]
    · have hb : (k == k0) = false := by simp [h]
      simp [List.lookup_cons, hb, ih, h]

/-- In a table with distinct keys, membership determines the lookup. -/
theorem lookup_eq_some_of_mem {f : List (String × PyValue)} {k : String} {v : PyValue}
    (hnd : (f.map Prod.fst).Nodup) (hmem : (k, v) ∈ f) :
    f.lookup k = some v := by
  induction f with
  | nil => simp at hmem
  | cons p t ih =>
    obtain ⟨k0, v0⟩ := p
    simp only [List.map_cons, List.nodup_cons] at hnd
    rcases List.mem_cons.mp hmem with h | h
    · obtain ⟨hk, hv⟩ := Prod.mk.injEq .. ▸ h
      subst hk
      subst hv
      simp [List.lookup_cons]
    · have hk : k ≠ k0 := by
        rintro rfl
        exact hnd.1 (List.mem_map_of_mem Prod.fst h)
      have hb : (k == k0) = false := by simp [hk]
      rw [List.lookup_cons]
      rw [hb]
      exact ih hnd.2 h

/-- The item order is transitive. -/
theorem fieldLe_trans (a b c : String × PyValue) (hab : fieldLe a b = true)
    (hbc : fieldLe b c = true) : fieldLe a c = true :=
  charListLe_trans _ _ _ hab hbc

/-- The item order is total. -/
theorem fieldLe_total (a b : String × PyValue) : (fieldLe a b || fieldLe b a) = true :=
  charListLe_total _ _

/-- The key order is antisymmetric on strings. -/
instance keyOrderAntisymm :
    IsAntisymm String (fun a b => charListLe a.data b.data = true) where
  antisymm a b h1 h2 := String.ext (charListLe_antisymm a.data b.data h1 h2)

/-- Two tables that find the same keys and have no duplicates produce, once
sorted, the same key sequence. -/
theorem sortFields_keys_eq {f1 f2 : List (String × PyValue)}
    (nd1 : (f1.map Prod.fst).Nodup) (nd2 : (f2.map Prod.fst).Nodup)
    (hsome : ∀ k, (f1.lookup k).isSome = (f2.lookup k).isSome) :
    (sortFields f1).map Prod.fst = (sortFields f2).map Prod.fst := by
  have hp1 : (sortFields f1).Perm f1 := List.mergeSort_perm f1 fieldLe
  have hp2 : (sortFields f2).Perm f2 := List.mergeSort_perm f2 fieldLe
  have hmem : ∀ k, k ∈ f1.map Prod.fst ↔ k ∈ f2.map Prod.fst := by
    intro k
    rw [← lookup_isSome_iff, ← lookup_isSome_iff, hsome k]
  have hpkeys : (f1.map Prod.fst).Perm (f2.map Prod.fst) :=
    (List.perm_ext_iff_of_nodup nd1 nd2).mpr hmem
  have hperm : ((sortFields f1).map Prod.fst).Perm ((sortFields f2).map Prod.fst) :=
    ((hp1.map Prod.fst).trans hpkeys).trans (hp2.map Prod.fst).symm
  have hs1 : List.Pairwise (fun a b : String × PyValue => fieldLe a b = true)
      (sortFields f1) := by
    unfold sortFields
    exact List.sorted_mergeSort fieldLe_trans fieldLe_total f1
  have hs2 : List.Pairwise (fun a b : String × PyValue => fieldLe a b = true)
      (sortFields f2) := by
    unfold sortFields
    exact List.sorted_mergeSort fieldLe_trans fieldLe_total f2
  have hsk1 : List.Sorted (fun a b : String => charListLe a.data b.data = true)
      ((sortFields f1).map Prod.fst) :=
    List.Pairwise.map Prod.fst (fun a b h => h) hs1
  have hsk2 : List.Sorted (fun a b : String => charListLe a.data b.data = true)
      ((sortFields f2).map Prod.fst) :=
    List.Pairwise.map Prod.fst (fun a b h => h) hs2
  exact List.eq_of_perm_of_sorted hperm hsk1 hsk2

/-- Cancel a common prefix and suffix of a string equation. -/
theorem append_inner_cancel {x y a b : String} (h : x ++ a ++ y = x ++ b ++ y) :
    a = b := by
  have hd := congrArg String.data h
  simp only [String.data_append, List.append_assoc] at hd
  exact String.ext (List.append_cancel_right (List.append_cancel_left hd))

/-- Two item lists with the same key sequence and (pointwise, by key)
identically-serialized values serialize to the same field strings. -/
theorem map_pairStr_eq (s1 s2 : List (String × PyValue))
    (hkeys : s1.map Prod.fst = s2.map Prod.fst)
    (hpair : ∀ k v1 v2, (k, v1) ∈ s1 → (k, v2) ∈ s2 → pyDumps v1 = pyDumps v2) :
    s1.map (fun p => jsonQuote p.1 ++ ": " ++ pyDumps p.2)
      = s2.map (fun p => jsonQuote p.1 ++ ": " ++ pyDumps p.2) := by
  induction s1 generalizing s2 with
  | nil =>
    cases s2 with
    | nil => rfl
    | cons q t2 => simp at hkeys
  | cons p t ih =>
    cases s2 with
    | nil => simp at hkeys
    | cons q t2 =>
      obtain ⟨k1, v1⟩ := p
      obtain ⟨k2, v2⟩ := q
      simp only [List.map_cons, List.cons.injEq] at hkeys ⊢
      obtain ⟨hk, ht⟩ := hkeys
      subst hk
      constructor
      · rw [hpair k1 v1 v2 (List.mem_cons_self _ _) (List.mem_cons_self _ _)]
      · exact ih t2 ht
          (fun k a b ha hb =>
            hpair k a b (List.mem_cons_of_mem _ ha) (List.mem_cons_of_mem _ hb))

/-- Two Python values that are equal as maps: identical leaves, lists
pointwise equal as maps, and dicts with no duplicate keys (as Python dicts
guarantee), the same key set, and — at every key — values again equal as
maps, regardless of item order. -/
inductive MapEq : PyValue → PyValue → Prop where
  | none : MapEq .none .none
  | bool (b : Bool) : MapEq (.bool b) (.bool b)
  | int (n : Int) : MapEq (.int n) (.int n)
  | str (s : String) : MapEq (.str s) (.str s)
  | listNil : MapEq (.list []) (.list [])
  | listCons {x y : PyValue} {xs ys : List PyValue} :
      MapEq x y → MapEq (.list xs) (.list ys) →
      MapEq (.list (x :: xs)) (.list (y :: ys))
  | dict {f1 f2 : List (String × PyValue)} :
      (f1.map Prod.fst).Nodup → (f2.map Prod.fst).Nodup →
      (∀ k, (f1.lookup k).isSome = (f2.lookup k).isSome) →
      (∀ k v1 v2, f1.lookup k = some v1 → f2.lookup k = some v2 → MapEq v1 v2) →
      MapEq (.dict f1) (.dict f2)

/-- Canonical serialization depends only on map contents: values that are
equal as maps serialize identically under `json.dumps(·, sort_keys=True)`. -/
theorem pyDumps_eq_of_mapEq {v1 v2 : PyValue} (h : MapEq v1 v2) :
    pyDumps v1 = pyDumps v2 := by
  induction h with
  | none => rfl
  | bool b => rfl
  | int n => rfl
  | str s => rfl
  | listNil => rfl
  | listCons hx hxs ihx ihxs =>
    rw [pyDumps_list, pyDumps_list]
    rw [pyDumps_list, pyDumps_list] at ihxs
    have htail := append_inner_cancel ihxs
    rename_i x y xs ys
    cases hxs with
    | listNil =>
      simp only [List.map_cons, List.map_nil]
      rw [show joinSep ", " [pyDumps x] = pyDumps x from rfl,
        show joinSep ", " [pyDumps y] = pyDumps y from rfl, ihx]
    | listCons hx2 hxs2 =>
      rename_i x2 y2 xs2 ys2
      simp only [List.map_cons] at htail ⊢
      rw [show joinSep ", " (pyDumps x :: pyDumps x2 :: List.map pyDumps xs2)
            = pyDumps x ++ ", " ++ joinSep ", " (pyDumps x2 :: List.map pyDumps xs2)
          from rfl,
        show joinSep ", " (pyDumps y :: pyDumps y2 :: List.map pyDumps ys2)
            = pyDumps y ++ ", " ++ joinSep ", " (pyDumps y2 :: List.map pyDumps ys2)
          from rfl,
        ihx, htail]
  | dict nd1 nd2 hsome hval ih =>
    rename_i f1 f2
    rw [pyDumps_dict, pyDumps_dict]
    have hkeys := sortFields_keys_eq nd1 nd2 hsome
    have hpair : ∀ k a b, (k, a) ∈ sortFields f1 → (k, b) ∈ sortFields f2 →
        pyDumps a = pyDumps b := by
      intro k a b ha hb
      have ha1 : (k, a) ∈ f1 := (List.mergeSort_perm f1 fieldLe).subset ha
      have hb1 : (k, b) ∈ f2 := (List.mergeSort_perm f2 fieldLe).subset hb
      exact ih k a b (lookup_eq_some_of_mem nd1 ha1) (lookup_eq_some_of_mem nd2 hb1)
    rw [map_pairStr_eq (sortFields f1) (sortFields f2) hkeys hpair]

/-- `cache_key_for_ai_request` from `cache.py`: the key is
`"ai:" + agent_type + ":" + model + ":" + data_hash` where `data_hash` is
the MD5 hex digest of `json.dumps(input_data, sort_keys=True)`.  The hash
(`md5hex`) is abstracted as a parameter: it is a pure function of the
serialized string, which is all that key equality depends on. -/
def cache_key_for_ai_request (md5hex : String → String) (agent_type : String)
    (input_data : PyValue) (model : String) : String :=
  "ai:" ++ agent_type ++ ":" ++ model ++ ":" ++ md5hex (pyDumps input_data)

/-- C8: for any two input dictionaries that are equal as maps (identical
keys and values at every nesting level, regardless of insertion order) and
the same `agent_type` and `model`, `cache_key_for_ai_request` produces the
identical cache key — logically identical requests collide to one cache
entry. -/
theorem cache_key_insertion_order_independent (md5hex : String → String)
    (agent_type model : String) (d1 d2 : PyValue) (h : MapEq d1 d2) :
    cache_key_for_ai_request md5hex agent_type d1 model
      = cache_key_for_ai_request md5hex agent_type d2 model := by
  unfold cache_key_for_ai_request
  rw [pyDumps_eq_of_mapEq h]

/-- A concrete pair of dicts with the same contents in the two insertion
orders, equal as maps. -/
theorem mapEq_two_fields :
    MapEq (.dict [("b", .int 2), ("a", .int 1)])
      (.dict [("a", .int 1), ("b", .int 2)]) := by
  have eba : (("b" : String) == "a") = false := rfl
  have ebb : (("b" : String) == "b") = true := rfl
  have eab : (("a" : String) == "b") = false := rfl
  have eaa : (("a" : String) == "a") = true := rfl
  refine MapEq.dict (by decide) (by decide) ?_ ?_
  · intro k
    by_cases hb : k = "b"
    · subst hb
      simp [List.lookup_cons, eba, ebb]
    · by_cases ha : k = "a"
      · subst ha
        simp [List.lookup_cons, eab, eaa]
      · have hb1 : (k == "b") = false := by simpa using hb
        have ha1 : (k == "a") = false := by simpa using ha
        simp [List.lookup_cons, hb1, ha1]
  · intro k v1 v2 h1 h2
    by_cases hb : k = "b"
    · subst hb
      simp [List.lookup_cons, eba, ebb] at h1 h2
      subst h1
      subst h2
      exact MapEq.int 2
    · by_cases ha : k = "a"
      · subst ha
        simp [List.lookup_cons, eab, eaa] at h1 h2
        subst h1
        subst h2
        exact MapEq.int 1
      · have hb1 : (k == "b") = false := by simpa using hb
        have ha1 : (k == "a") = false := by simpa using ha
        simp [List.lookup_cons, hb1, ha1] at h1

/-- Witness for C8: the same two-field input in its two insertion orders,
with the same agent type and model, yields the identical cache key. -/
theorem cache_key_insertion_order_independent_witness :
    cache_key_for_ai_request (fun s => s) "scorer"
        (.dict [("b", .int 2), ("a", .int 1)]) "auto"
      = cache_key_for_ai_request (fun s => s) "scorer"
        (.dict [("a", .int 1), ("b", .int 2)]) "auto" :=
  cache_key_insertion_order_independent (fun s => s) "scorer" "auto"
    (.dict [("b", .int 2), ("a", .int 1)]) (.dict [("a", .int 1), ("b", .int 2)])
    mapEq_two_fields

end Spec2Proof
